import Mathlib

/-!
Verification of the conversation session-memory layer of the Telegram
chatbot webhook (`webhook/__init__.py`).

The Python module is shallowly embedded: dictionaries become structures or
association lists, in-place mutation of the process-wide store becomes
explicit state passing, `time.time()` becomes an explicit integer clock
argument, and exception-raising paths become `Except`/`Option` results.
JSON values handled by the standard `json.dumps`/`json.loads` pair are
modelled as an abstract `Json` inductive: the standard library guarantees
that a dumped value loads back to an equal value, so the serialized string
is represented by the JSON value itself, and the repository-authored
conversion between histories and JSON shapes is modelled explicitly.
-/

set_option autoImplicit false

/-- Embedding of the Python message dict `{"role": ..., "content": ...}` used
as a conversation turn throughout `webhook/__init__.py`. -/
structure Turn where
  role : String
  content : String
  deriving Repr, DecidableEq

/-- Histories are ordered lists of turns, newest last. -/
abbrev History := List Turn

/-- Embedding of `clip_history(history, max_turns)` (lines 127-131):
`if max_turns <= 0: return []` and otherwise the Python slice
`history[-max_turns:]`, which keeps the last `max_turns` entries
(the whole list when `max_turns >= len(history)`). -/
def clip_history (history : History) (max_turns : Int) : History :=
  if max_turns ≤ 0 then []
  else history.drop (history.length - max_turns.toNat)

/-- Lookup in an association list, modelling Python `dict.get`: the embedding
keeps one entry per key, so first match is the entry. -/
def lookupKey {κ α : Type} [DecidableEq κ] : List (κ × α) → κ → Option α
  | [], _ => none
  | (k, v) :: rest, key => if k = key then some v else lookupKey rest key

/-- Key assignment `d[k] = v`, modelling Python dict update: replaces the
entry for `k` when present, otherwise appends it. -/
def insertKey {κ α : Type} [DecidableEq κ] : List (κ × α) → κ → α → List (κ × α)
  | [], key, v => [(key, v)]
  | (k, w) :: rest, key, v =>
      if k = key then (key, v) :: rest else (k, w) :: insertKey rest key v

/-- Key removal `d.pop(k, None)` / `del d[k]`: removes the entry for `k`
when present, otherwise leaves the list unchanged. -/
def eraseKey {κ α : Type} [DecidableEq κ] : List (κ × α) → κ → List (κ × α)
  | [], _ => []
  | (k, v) :: rest, key => if k = key then rest else (k, v) :: eraseKey rest key

/-- Embedding of the record `{"messages": ..., "exp": ...}` stored per chat
by `InMemoryStore` (line 64). Times are modelled as integers. -/
structure InMemoryRec where
  messages : History
  exp : Int
  deriving Repr, DecidableEq

/-- Embedding of `InMemoryStore` (lines 47-67): the `_store` dict plus the
`_ttl` field fixed at construction. -/
structure InMemoryStore where
  store : List (String × InMemoryRec)
  ttl : Int
  deriving Repr, DecidableEq

/-- Embedding of `InMemoryStore.get` (lines 53-61). Python mutates `_store`
in place on eviction, so the embedding returns the history together with the
updated store. `if not rec` is true exactly when the key is absent (a stored
record dict is never falsy). -/
def InMemoryStore.get (s : InMemoryStore) (chat_id : String) (now : Int) :
    History × InMemoryStore :=
  match lookupKey s.store chat_id with
  | none => ([], s)
  | some rec =>
      if rec.exp < now then ([], { s with store := eraseKey s.store chat_id })
      else (rec.messages, s)

/-- Embedding of `InMemoryStore.put` (lines 63-64):
`self._store[chat_id] = {"messages": messages, "exp": time.time() + self._ttl}`. -/
def InMemoryStore.put (s : InMemoryStore) (chat_id : String) (messages : History)
    (now : Int) : InMemoryStore :=
  { s with store := insertKey s.store chat_id ⟨messages, now + s.ttl⟩ }

/-- Embedding of `InMemoryStore.delete` (lines 66-67):
`self._store.pop(chat_id, None)`. -/
def InMemoryStore.delete (s : InMemoryStore) (chat_id : String) : InMemoryStore :=
  { s with store := eraseKey s.store chat_id }

/-- Abstract JSON values, modelling the Python objects passed to
`json.dumps` and returned by `json.loads`. The serialized string itself is
not modelled: `json.loads (json.dumps v)` returns a value equal to `v`, so
the `messagesJson` table field is represented by the JSON value it holds. -/
inductive Json where
  | null : Json
  | str : String → Json
  | num : Int → Json
  | arr : List Json → Json
  | obj : List (String × Json) → Json

/-- JSON shape of one turn dict as `json.dumps` receives it from
`TableStore.put` (line 93): an object with the `role` and `content` keys. -/
def Turn.toJson (t : Turn) : Json :=
  .obj [("role", .str t.role), ("content", .str t.content)]

/-- JSON shape of a history as serialized by `json.dumps(messages)`:
an array of turn objects. -/
def historyToJson (h : History) : Json :=
  .arr (h.map Turn.toJson)

/-- Reading a JSON value back as a turn dict. `json.loads` performs no shape
checking; this is the typed reading of the loaded value, defined exactly on
the values `Turn.toJson` produces up to extra object fields. -/
def turnFromJson (j : Json) : Option Turn :=
  match j with
  | .obj fields =>
      match lookupKey fields "role", lookupKey fields "content" with
      | some (.str r), some (.str c) => some ⟨r, c⟩
      | _, _ => none
  | _ => none

def historyFromJsonList : List Json → Option History
  | [] => some []
  | j :: rest =>
      match turnFromJson j, historyFromJsonList rest with
      | some t, some h => some (t :: h)
      | _, _ => none

/-- Reading a loaded JSON value back as a History. A `none` result models the
payloads on which `json.loads` raises (or which do not denote a history of
turn dicts); `TableStore.get` maps that case to `[]` through its
`except Exception` handler. -/
def historyFromJson (j : Json) : Option History :=
  match j with
  | .arr elems => historyFromJsonList elems
  | _ => none

/-- Embedding of a stored table entity (lines 90-95) apart from its key:
the `messagesJson` payload (`none` models a missing or null field, on which
line 83 falls back to `"[]"`) and the `ts` write timestamp. -/
structure TableEntity where
  messagesJson : Option Json
  ts : Int

/-- Embedding of `TableStore` (lines 69-108): the remote table keyed by
`(PartitionKey, RowKey)` pairs. -/
structure TableStore where
  table : List ((String × String) × TableEntity)

/-- Embedding of `TableStore._key` (lines 76-77): fixed partition `"chat"`,
row key the conversation id (already a string). -/
def TableStore.key (chat_id : String) : String × String :=
  ("chat", chat_id)

/-- Embedding of the body of `TableStore.get` (lines 79-86) as a function of
the raw backend response: `.error` models any exception out of `get_entity`
(backend unreachable or entity not found) as well as a payload on which
`json.loads` raises — all are absorbed by the `except Exception: return []`
handler. -/
def tableGetFromResponse (resp : Except Unit TableEntity) : History :=
  match resp with
  | .error _ => []
  | .ok e =>
      match historyFromJson (e.messagesJson.getD (.arr [])) with
      | some h => h
      | none => []

/-- Embedding of `TableStore.get` against a healthy backend: the entity is
looked up in the table, an absent entity is the `ResourceNotFound` error
response. -/
def TableStore.get (s : TableStore) (chat_id : String) : History :=
  tableGetFromResponse
    (match lookupKey s.table (TableStore.key chat_id) with
     | none => .error ()
     | some e => .ok e)

/-- Embedding of `TableStore.put` (lines 88-97): serializes the messages into
the `messagesJson` field and merge-upserts the entity. Every modelled field is
named by the written entity, so the merge replaces the stored entity. -/
def TableStore.put (s : TableStore) (chat_id : String) (messages : History)
    (now : Int) : TableStore :=
  ⟨insertKey s.table (TableStore.key chat_id) ⟨some (historyToJson messages), now⟩⟩

/-- Embedding of `TableStore.delete` (lines 99-108): removes the entity;
a `ResourceNotFoundError` on an absent entity is swallowed, so absence is a
no-op. -/
def TableStore.delete (s : TableStore) (chat_id : String) : TableStore :=
  ⟨eraseKey s.table (TableStore.key chat_id)⟩

/-- Embedding of a Telegram message entity dict: each field is optional,
`dict.get` defaults apply at the use sites. -/
structure MsgEntity where
  type : Option String
  offset : Option Int
  length : Option Int
  deriving Repr, DecidableEq

/-- Embedding of the inbound message dict as `extract_bot_command` and `main`
consume it: the chat id, the optional `text` field and the optional
`entities` list. -/
structure Message where
  chat_id : Int
  text : Option String
  entities : Option (List MsgEntity)
  deriving Repr, DecidableEq

/-- Python slice `s[:n]` for an `int` bound `n`, over the character list of
the text: a negative bound counts back from the end (clamped at 0), a
nonnegative bound keeps the first `n` characters. -/
def pySliceTo (s : List Char) (n : Int) : List Char :=
  if n < 0 then s.take (s.length - n.natAbs) else s.take n.toNat

/-- Python `s.split("@", 1)[0]`: the part of `s` before the first `@`,
or all of `s` when it has none. -/
def splitAtSign (s : List Char) : List Char :=
  s.takeWhile (fun c => c ≠ '@')

/-- Python `s.lower()`, restricted to the ASCII case mapping (the inputs the
specification speaks about are ASCII). -/
def pyLower (s : List Char) : List Char :=
  s.map Char.toLower

def pyWordsAux : List Char → List Char → List (List Char)
  | [], acc => if acc = [] then [] else [acc.reverse]
  | c :: rest, acc =>
      if c.isWhitespace then
        if acc = [] then pyWordsAux rest []
        else acc.reverse :: pyWordsAux rest []
      else pyWordsAux rest (c :: acc)

/-- Python `text.split()`: split on runs of whitespace, discarding empty
pieces. -/
def pyWords (s : List Char) : List (List Char) :=
  pyWordsAux s []

/-- Predicate of the entity loop (line 139):
`entity.get("type") == "bot_command" and entity.get("offset", 0) == 0`. -/
def isCommandEntity (e : MsgEntity) : Bool :=
  e.type == some "bot_command" && e.offset.getD 0 == 0

/-- Embedding of `extract_bot_command(message)` (lines 133-147). The
`.error` result models the uncaught `IndexError` of `text.split()[0]` when
`text` is truthy but all whitespace; when `text` is falsy the conditional
expression makes `first_token` the empty string instead, which starts with
no `/`, so the result is `None`. -/
def extract_bot_command (message : Message) : Except Unit (Option String) :=
  let text := (message.text.getD "").data
  let entities := message.entities.getD []
  match entities.find? isCommandEntity with
  | some entity =>
      let length := entity.length.getD 0
      let cmd := pySliceTo text length
      .ok (some (String.mk (pyLower (splitAtSign cmd))))
  | none =>
      match pyWords text with
      | [] => if text = [] then .ok none else .error ()
      | tok :: _ =>
          let first_token := pyLower tok
          match first_token with
          | '/' :: _ => .ok (some (String.mk (splitAtSign first_token)))
          | _ => .ok none

/-- Embedding of the `COMMAND_RESPONSES` table (lines 25-29). -/
def COMMAND_RESPONSES : List (String × String) :=
  [("/start", "Hi! I'm your assistant. Ask me anything to get started."),
   ("/help", "Send me a message and I'll do my best to help. Commands: /start, /help, /reset."),
   ("/reset", "Cleared the recent chat memory. We can start fresh!")]

/-- Configuration read from the environment at module load: the system prompt
(line 15) and the history window bound `MEMORY_MAX_TURNS` (line 16). The TTL
`MEMORY_TTL_SEC` lives inside the selected `InMemoryStore`. -/
structure Config where
  system_prompt : String
  memory_max_turns : Int
  deriving Repr, DecidableEq

/-- Embedding of `build_messages(history, user_text)` (lines 122-125):
system prompt, then the history, then the current user turn. -/
def build_messages (cfg : Config) (history : History) (user_text : String) :
    List Turn :=
  ⟨"system", cfg.system_prompt⟩ :: (history ++ [⟨"user", user_text⟩])

/-- Embedding of the parsed webhook update dict as `main` consumes it. -/
structure Update where
  message : Option Message
  edited_message : Option Message
  deriving Repr, DecidableEq

/-- Truncation applied by `send_telegram_message` (line 150):
`text[:4096]`, the Telegram hard cap. -/
def telegramTruncate (text : String) : String :=
  String.mk (text.data.take 4096)

def natDigitsAux : Nat → Nat → List Char
  | 0, _ => []
  | fuel + 1, n =>
      if n = 0 then [] else natDigitsAux fuel (n / 10) ++ [Char.ofNat (48 + n % 10)]

def natDigits (n : Nat) : List Char :=
  if n = 0 then ['0'] else natDigitsAux (n + 1) n

/-- Python `str(chat_id)` on the integer chat id (line 172): plain decimal
with a leading minus sign for negative ids. -/
def pyStr : Int → String
  | .ofNat n => String.mk (natDigits n)
  | .negSucc m => String.mk ('-' :: natDigits (m + 1))

/-- Observable outcome of one `main` invocation: the HTTP response, the
memory store after the request, the messages handed to
`send_telegram_message`, the message list handed to the completion provider
(if called), and counts of completion calls, store reads and store writes. -/
structure MainResult where
  status : Nat
  body : String
  store : InMemoryStore
  sent : List (Int × String)
  prompt : Option (List Turn)
  completionCalls : Nat
  storeReads : Nat
  storeWrites : Nat
  deriving Repr, DecidableEq

/-- Embedding of line 165,
`msg = update.get("message") or update.get("edited_message")`. -/
def updateMessage (u : Update) : Option Message :=
  match u.message with
  | some m => some m
  | none => u.edited_message

/-- Outcome of the completion call (lines 196-201): `.ok answer` on success,
`.error name` when `client.chat.completions.create` raises an exception whose
type name is `name` (used by the handler on line 203). -/
abbrev CompletionOutcome := Except String String

/-- Embedding of `main(req)` (lines 156-220) with the module-level
`memory_store` fixed to the `InMemoryStore` selected when no table connection
string is configured (lines 117-118). The request is the method plus the
parse outcome of its body (`none` models `req.get_json()` raising); the
clock and the completion outcome are oracles. The `.error` result models an
uncaught exception escaping the handler (only `extract_bot_command` can
raise one on this embedding). Lean reserves the name `main`, so the
definition is named `webhook_main`. -/
def webhook_main (cfg : Config) (method : String) (reqBody : Option Update)
    (s : InMemoryStore) (now : Int) (completion : CompletionOutcome) :
    Except Unit MainResult :=
  if method ≠ "POST" then
    .ok ⟨200, "OK", s, [], none, 0, 0, 0⟩
  else
    match reqBody with
    | none => .ok ⟨400, "Invalid JSON", s, [], none, 0, 0, 0⟩
    | some update =>
        match updateMessage update with
        | none => .ok ⟨200, "OK", s, [], none, 0, 0, 0⟩
        | some msg =>
            match msg.text with
            | none => .ok ⟨200, "OK", s, [], none, 0, 0, 0⟩
            | some user_text =>
                let chat_id := msg.chat_id
                let chat_key := pyStr chat_id
                match extract_bot_command msg with
                | .error e => .error e
                | .ok (some command) =>
                    let s1 := if command = "/reset" then s.delete chat_key else s
                    let reply := (lookupKey COMMAND_RESPONSES command).getD
                      "Sorry, I don't recognize that command."
                    .ok ⟨200, "OK", s1, [(chat_id, telegramTruncate reply)],
                         none, 0, 0, 0⟩
                | .ok none =>
                    let loaded := s.get chat_key now
                    let history := loaded.1
                    let s1 := loaded.2
                    let messages := build_messages cfg history user_text
                    let answer := match completion with
                      | .ok a => a
                      | .error name => "⚠️ Error: " ++ name
                    let history2 := history ++
                      [⟨"user", user_text⟩, ⟨"assistant", answer⟩]
                    let history3 := clip_history history2 cfg.memory_max_turns
                    let s2 := s1.put chat_key history3 now
                    .ok ⟨200, "OK", s2, [(chat_id, telegramTruncate answer)],
                         some messages, 1, 1, 1⟩

/-- Invariant of the memory store: no stored turn has the system role. All
entries quantified over the underlying list, so the property is decidable on
concrete stores. -/
def NoSystemStore (s : InMemoryStore) : Prop :=
  ∀ e ∈ s.store, ∀ turn ∈ e.2.messages, turn.role ≠ "system"

theorem lookupKey_insertKey_self {κ α : Type} [DecidableEq κ] (l : List (κ × α)) (k : κ) (v : α) :
    lookupKey (insertKey l k v) k = some v := by
  induction l with
  | nil => simp [insertKey, lookupKey]
  | cons p rest ih =>
      obtain ⟨k0, w⟩ := p
      by_cases h : k0 = k
      · simp [insertKey, lookupKey, h]
      · simp [insertKey, lookupKey, h, ih]

theorem lookupKey_insertKey_ne {κ α : Type} [DecidableEq κ] (l : List (κ × α)) (k k' : κ)
    (v : α) (h : k' ≠ k) : lookupKey (insertKey l k v) k' = lookupKey l k' := by
  induction l with
  | nil => simp [insertKey, lookupKey, Ne.symm h]
  | cons p rest ih =>
      obtain ⟨k0, w⟩ := p
      by_cases h0 : k0 = k
      · subst h0
        simp [insertKey, lookupKey, Ne.symm h]
      · by_cases h1 : k0 = k'
        · subst h1
          simp [insertKey, lookupKey, h0, h]
        · simp [insertKey, lookupKey, h0, h1, ih]

theorem lookupKey_eraseKey_self {κ α : Type} [DecidableEq κ] (l : List (κ × α)) (k : κ)
    (hl : (l.map Prod.fst).Nodup) : lookupKey (eraseKey l k) k = none := by
  induction l with
  | nil => simp [eraseKey, lookupKey]
  | cons p rest ih =>
      obtain ⟨k0, w⟩ := p
      simp only [List.map_cons, List.nodup_cons] at hl
      by_cases h : k0 = k
      · subst h
        cases hrest : lookupKey rest k0 with
        | none => simp [eraseKey, hrest]
        | some v =>
            exfalso
            apply hl.1
            clear ih hl
            induction rest with
            | nil => simp [lookupKey] at hrest
            | cons q rest2 ih2 =>
                obtain ⟨k1, w1⟩ := q
                by_cases h1 : k1 = k0
                · simp [h1]
                · simp only [lookupKey, h1, if_false] at hrest
                  simp [ih2 hrest]
      · simp [eraseKey, lookupKey, h, ih hl.2]

theorem lookupKey_eraseKey_ne {κ α : Type} [DecidableEq κ] (l : List (κ × α)) (k k' : κ)
    (h : k' ≠ k) : lookupKey (eraseKey l k) k' = lookupKey l k' := by
  induction l with
  | nil => simp [eraseKey, lookupKey]
  | cons p rest ih =>
      obtain ⟨k0, w⟩ := p
      by_cases h0 : k0 = k
      · subst h0
        simp [eraseKey, lookupKey, Ne.symm h]
      · by_cases h1 : k0 = k'
        · subst h1
          simp [eraseKey, lookupKey, h0, h]
        · simp [eraseKey, lookupKey, h0, h1, ih]

theorem lookupKey_mem {κ α : Type} [DecidableEq κ] {l : List (κ × α)} {k : κ} {v : α}
    (h : lookupKey l k = some v) : (k, v) ∈ l := by
  induction l with
  | nil => simp [lookupKey] at h
  | cons p rest ih =>
      obtain ⟨k0, w⟩ := p
      by_cases h0 : k0 = k
      · subst h0
        simp only [lookupKey, if_true, Option.some.injEq, eq_self_iff_true] at h
        simp [← h]
      · simp only [lookupKey, if_neg h0] at h
        exact List.mem_cons_of_mem _ (ih h)

theorem mem_insertKey {κ α : Type} [DecidableEq κ] {l : List (κ × α)} {k : κ} {v : α}
    {e : κ × α} (he : e ∈ insertKey l k v) : e = (k, v) ∨ e ∈ l := by
  induction l with
  | nil => simp [insertKey] at he; simp [he]
  | cons p rest ih =>
      obtain ⟨k0, w⟩ := p
      by_cases h0 : k0 = k
      · simp only [insertKey, if_pos h0, List.mem_cons] at he
        rcases he with h | h
        · exact Or.inl h
        · exact Or.inr (List.mem_cons_of_mem _ h)
      · simp only [insertKey, if_neg h0, List.mem_cons] at he
        rcases he with h | h
        · exact Or.inr (by simp [h])
        · rcases ih h with h' | h'
          · exact Or.inl h'
          · exact Or.inr (List.mem_cons_of_mem _ h')

theorem mem_eraseKey {κ α : Type} [DecidableEq κ] {l : List (κ × α)} {k : κ}
    {e : κ × α} (he : e ∈ eraseKey l k) : e ∈ l := by
  induction l with
  | nil => simp [eraseKey] at he
  | cons p rest ih =>
      obtain ⟨k0, w⟩ := p
      by_cases h0 : k0 = k
      · simp only [eraseKey, if_pos h0] at he
        exact List.mem_cons_of_mem _ he
      · simp only [eraseKey, if_neg h0, List.mem_cons] at he
        rcases he with h | h
        · simp [h]
        · exact List.mem_cons_of_mem _ (ih h)

theorem mem_map_fst_insertKey {κ α : Type} [DecidableEq κ] {l : List (κ × α)} {k a : κ}
    {v : α} (h : a ∈ (insertKey l k v).map Prod.fst) : a = k ∨ a ∈ l.map Prod.fst := by
  simp only [List.mem_map] at h
  obtain ⟨e, he, hfst⟩ := h
  rcases mem_insertKey he with h' | h'
  · subst h'
    exact Or.inl hfst.symm
  · exact Or.inr (by exact List.mem_map.mpr ⟨e, h', hfst⟩)

theorem nodup_map_fst_insertKey {κ α : Type} [DecidableEq κ] (l : List (κ × α)) (k : κ)
    (v : α) (hl : (l.map Prod.fst).Nodup) : ((insertKey l k v).map Prod.fst).Nodup := by
  induction l with
  | nil => simp [insertKey]
  | cons p rest ih =>
      obtain ⟨k0, w⟩ := p
      simp only [List.map_cons, List.nodup_cons] at hl
      by_cases h0 : k0 = k
      · subst h0
        simpa [insertKey] using hl
      · simp only [insertKey, if_neg h0, List.map_cons, List.nodup_cons]
        refine ⟨fun hmem => ?_, ih hl.2⟩
        rcases mem_map_fst_insertKey hmem with h' | h'
        · exact h0 h'
        · exact hl.1 h'

theorem eraseKey_of_lookup_none {κ α : Type} [DecidableEq κ] (l : List (κ × α)) (k : κ)
    (h : lookupKey l k = none) : eraseKey l k = l := by
  induction l with
  | nil => simp [eraseKey]
  | cons p rest ih =>
      obtain ⟨k0, w⟩ := p
      by_cases h0 : k0 = k
      · simp [lookupKey, h0] at h
      · simp only [lookupKey, if_neg h0] at h
        simp [eraseKey, h0, ih h]

theorem mem_clip_history {h : History} {n : Int} {t : Turn}
    (ht : t ∈ clip_history h n) : t ∈ h := by
  unfold clip_history at ht
  split at ht
  · simp at ht
  · exact List.drop_subset _ _ ht

theorem clip_history_length_le (h : History) (n : Int) :
    (clip_history h n).length ≤ n.toNat := by
  unfold clip_history
  split
  · simp
  · simp only [List.length_drop]
    omega

/-- C1: for every history H and every integer N > 0, `clip_history H N` has
length at most N and is a suffix of H consisting of its last min(N, len H)
entries in their original order; for every N ≤ 0 it is the empty history. -/
theorem clip_history_correct (H : History) (N : Int) :
    (N ≤ 0 → clip_history H N = []) ∧
    (0 < N →
      ((clip_history H N).length : Int) ≤ N ∧
      clip_history H N <:+ H ∧
      (clip_history H N).length = min N.toNat H.length) := by
  constructor
  · intro h
    simp [clip_history, h]
  · intro h
    have hn : ¬ N ≤ 0 := by omega
    refine ⟨?_, ?_, ?_⟩
    · unfold clip_history
      rw [if_neg hn]
      simp only [List.length_drop]
      omega
    · unfold clip_history
      rw [if_neg hn]
      exact List.drop_suffix _ _
    · unfold clip_history
      rw [if_neg hn]
      simp only [List.length_drop]
      omega

/-- Witness for `clip_history_correct` at H = three turns, N = 2 and N = -3. -/
theorem clip_history_correct_witness :
    ((-3 : Int) ≤ 0 → clip_history [⟨"user", "a"⟩] (-3) = []) ∧
    ((0 : Int) < 2 →
      ((clip_history [⟨"user", "a"⟩, ⟨"assistant", "b"⟩, ⟨"user", "c"⟩] 2).length : Int) ≤ 2 ∧
      clip_history [⟨"user", "a"⟩, ⟨"assistant", "b"⟩, ⟨"user", "c"⟩] 2 <:+
        [⟨"user", "a"⟩, ⟨"assistant", "b"⟩, ⟨"user", "c"⟩] ∧
      (clip_history [⟨"user", "a"⟩, ⟨"assistant", "b"⟩, ⟨"user", "c"⟩] 2).length =
        min (2 : Int).toNat 3) :=
  ⟨(clip_history_correct [⟨"user", "a"⟩] (-3)).1,
   (clip_history_correct [⟨"user", "a"⟩, ⟨"assistant", "b"⟩, ⟨"user", "c"⟩] 2).2⟩

/-- C2: a record put for key k at time t expires at t + ttl; a get strictly
after that time returns the empty history and removes k from the map
(lazy eviction), and every put sets the record expiry to write time + ttl. -/
theorem inMemoryStore_ttl_expiry (s : InMemoryStore) (k : String) (H : History)
    (t now : Int) (hnodup : (s.store.map Prod.fst).Nodup)
    (hlate : t + s.ttl < now) :
    lookupKey (s.put k H t).store k = some ⟨H, t + s.ttl⟩ ∧
    ((s.put k H t).get k now).1 = [] ∧
    lookupKey ((s.put k H t).get k now).2.store k = none := by
  have hlook : lookupKey (s.put k H t).store k = some ⟨H, t + s.ttl⟩ :=
    lookupKey_insertKey_self s.store k ⟨H, t + s.ttl⟩
  refine ⟨hlook, ?_, ?_⟩
  · simp [InMemoryStore.get, hlook, hlate]
  · simp only [InMemoryStore.get, hlook, hlate, if_true]
    simp only [InMemoryStore.put]
    exact lookupKey_eraseKey_self _ k (nodup_map_fst_insertKey s.store k _ hnodup)

/-- Witness for `inMemoryStore_ttl_expiry`: empty store with ttl 50, write at
time 10, read at time 100. -/
theorem inMemoryStore_ttl_expiry_witness :
    ((([] : List (String × InMemoryRec)).map Prod.fst).Nodup ∧ (10 : Int) + 50 < 100) ∧
    (lookupKey ((InMemoryStore.mk [] 50).put "5" [⟨"user", "x"⟩] 10).store "5" =
        some ⟨[⟨"user", "x"⟩], 10 + 50⟩ ∧
      (((InMemoryStore.mk [] 50).put "5" [⟨"user", "x"⟩] 10).get "5" 100).1 = [] ∧
      lookupKey (((InMemoryStore.mk [] 50).put "5" [⟨"user", "x"⟩] 10).get "5" 100).2.store "5" =
        none) :=
  ⟨⟨by decide, by decide⟩,
   inMemoryStore_ttl_expiry ⟨[], 50⟩ "5" [⟨"user", "x"⟩] 10 100 (by decide) (by decide)⟩

/-- C10: every `InMemoryStore` operation on key k leaves every other key k'
unchanged: put writes only k, delete removes at most k and is a no-op when k
is absent, and get evicts at most the queried key. -/
theorem inMemoryStore_frame (s : InMemoryStore) (k k' : String) (H : History)
    (t now : Int) (hne : k' ≠ k) :
    lookupKey (s.put k H t).store k' = lookupKey s.store k' ∧
    lookupKey (s.delete k).store k' = lookupKey s.store k' ∧
    (lookupKey s.store k = none → s.delete k = s) ∧
    lookupKey ((s.get k now).2).store k' = lookupKey s.store k' := by
  refine ⟨lookupKey_insertKey_ne s.store k k' _ hne,
        lookupKey_eraseKey_ne s.store k k' hne, ?_, ?_⟩
  · intro h
    simp [InMemoryStore.delete, eraseKey_of_lookup_none s.store k h]
  · unfold InMemoryStore.get
    cases hl : lookupKey s.store k with
    | none => rfl
    | some rec =>
        by_cases he : rec.exp < now
        · simp [he, lookupKey_eraseKey_ne s.store k k' hne]
        · simp [he]

/-- Witness for `inMemoryStore_frame`: a store holding only key "6", touched
at the absent key "5". -/
theorem inMemoryStore_frame_witness :
    ("6" ≠ "5" ∧ lookupKey [("6", InMemoryRec.mk [⟨"user", "y"⟩] 99)] "5" = none) ∧
    (lookupKey ((InMemoryStore.mk [("6", ⟨[⟨"user", "y"⟩], 99⟩)] 50).put "5"
        [⟨"user", "x"⟩] 10).store "6" =
      lookupKey [("6", InMemoryRec.mk [⟨"user", "y"⟩] 99)] "6" ∧
    lookupKey ((InMemoryStore.mk [("6", ⟨[⟨"user", "y"⟩], 99⟩)] 50).delete "5").store "6" =
      lookupKey [("6", InMemoryRec.mk [⟨"user", "y"⟩] 99)] "6" ∧
    (lookupKey [("6", InMemoryRec.mk [⟨"user", "y"⟩] 99)] "5" = none →
      (InMemoryStore.mk [("6", ⟨[⟨"user", "y"⟩], 99⟩)] 50).delete "5" =
        InMemoryStore.mk [("6", ⟨[⟨"user", "y"⟩], 99⟩)] 50) ∧
    lookupKey (((InMemoryStore.mk [("6", ⟨[⟨"user", "y"⟩], 99⟩)] 50).get "5" 80).2).store "6" =
      lookupKey [("6", InMemoryRec.mk [⟨"user", "y"⟩] 99)] "6") :=
  ⟨⟨by decide, by decide⟩,
   inMemoryStore_frame ⟨[("6", ⟨[⟨"user", "y"⟩], 99⟩)], 50⟩ "5" "6"
     [⟨"user", "x"⟩] 10 80 (by decide)⟩

/-- C6: a get never fails visibly: an absent key yields the empty history in
both stores, and a backend error or a deserialization failure yields the
empty history from the persistent store. -/
theorem store_get_never_fails (s : InMemoryStore) (ts : TableStore) (k : String)
    (now : Int) (e : TableEntity)
    (habsent : lookupKey s.store k = none)
    (htabsent : lookupKey ts.table (TableStore.key k) = none)
    (hbad : historyFromJson (e.messagesJson.getD (.arr [])) = none) :
    s.get k now = ([], s) ∧
    ts.get k = [] ∧
    tableGetFromResponse (.error ()) = [] ∧
    tableGetFromResponse (.ok e) = [] := by
  refine ⟨?_, ?_, rfl, ?_⟩
  · simp [InMemoryStore.get, habsent]
  · simp [TableStore.get, htabsent, tableGetFromResponse]
  · simp [tableGetFromResponse, hbad]

/-- Witness for `store_get_never_fails`: empty stores, fresh key "77", and an
entity whose payload is the JSON number 3. -/
theorem store_get_never_fails_witness :
    (lookupKey ([] : List (String × InMemoryRec)) "77" = none ∧
      lookupKey ([] : List ((String × String) × TableEntity)) (TableStore.key "77") = none ∧
      historyFromJson ((some (Json.num 3)).getD (.arr [])) = none) ∧
    ((InMemoryStore.mk [] 50).get "77" 10 = ([], InMemoryStore.mk [] 50) ∧
      (TableStore.mk []).get "77" = [] ∧
      tableGetFromResponse (.error ()) = [] ∧
      tableGetFromResponse (.ok ⟨some (Json.num 3), 0⟩) = []) :=
  ⟨⟨by decide, by rfl, by rfl⟩,
   store_get_never_fails ⟨[], 50⟩ ⟨[]⟩ "77" 10 ⟨some (Json.num 3), 0⟩
     (by decide) (by rfl) (by rfl)⟩

theorem turnFromJson_toJson (t : Turn) : turnFromJson t.toJson = some t := by
  obtain ⟨r, c⟩ := t
  rfl

theorem historyFromJson_historyToJson (h : History) :
    historyFromJson (historyToJson h) = some h := by
  induction h with
  | nil => rfl
  | cons t rest ih =>
      simp only [historyToJson, List.map_cons, historyFromJson, historyFromJsonList,
        turnFromJson_toJson]
      simp only [historyToJson, historyFromJson] at ih
      rw [ih]

/-- C8: a put immediately followed by a get on an unchanged backend returns a
history equal to the one written (serialize-then-deserialize round-trip). -/
theorem tableStore_roundtrip (ts : TableStore) (k : String) (H : History)
    (now : Int) : (ts.put k H now).get k = H := by
  unfold TableStore.get TableStore.put
  simp only [lookupKey_insertKey_self]
  simp [tableGetFromResponse, historyFromJson_historyToJson]

/-- C3: when some entity passes the command-entity test, the returned command
is the first `length` characters of the text with any `@`-suffix stripped and
lowercased (the entity path takes precedence); with no such entity the first
whitespace-delimited token is used only when it starts with `/`; in
particular `/reset@mybot extra text` with an offset-0 length-6 entity yields
`/reset`, and `hello /reset` with no entities yields none. -/
theorem extract_bot_command_spec :
    (∀ (m : Message) (e : MsgEntity),
      (m.entities.getD []).find? isCommandEntity = some e →
      extract_bot_command m =
        .ok (some (String.mk (pyLower (splitAtSign
          (pySliceTo (m.text.getD "").data (e.length.getD 0))))))) ∧
    (∀ (m : Message) (tok : List Char) (toks : List (List Char)),
      (m.entities.getD []).find? isCommandEntity = none →
      pyWords (m.text.getD "").data = tok :: toks →
      ((pyLower tok).head? = some '/' →
        extract_bot_command m = .ok (some (String.mk (splitAtSign (pyLower tok))))) ∧
      ((pyLower tok).head? ≠ some '/' → extract_bot_command m = .ok none)) ∧
    extract_bot_command
      ⟨7, some "/reset@mybot extra text", some [⟨some "bot_command", some 0, some 6⟩]⟩ =
      .ok (some "/reset") ∧
    extract_bot_command ⟨7, some "hello /reset", none⟩ = .ok none := by
  refine ⟨?_, ?_, by rfl, by rfl⟩
  · intro m e hfind
    simp only [extract_bot_command, hfind]
  · intro m tok toks hfind hwords
    constructor
    · intro hhead
      cases hlow : pyLower tok with
      | nil => simp [hlow] at hhead
      | cons c cs =>
          rw [hlow] at hhead
          simp only [List.head?_cons, Option.some.injEq] at hhead
          subst hhead
          simp only [extract_bot_command, hfind, hwords, hlow]
    · intro hhead
      simp only [extract_bot_command, hfind, hwords]
      cases hlow : pyLower tok with
      | nil => rfl
      | cons c cs =>
          have hc : c ≠ '/' := by
            intro h
            apply hhead
            rw [hlow, h]
            rfl
          split
          · rename_i heq
            cases heq
            exact absurd rfl hc
          · rfl

/-- Witness for `extract_bot_command_spec`: the entity path at the
`/reset@mybot` message and the fallback path at `hello /reset`. -/
theorem extract_bot_command_spec_witness :
    (((⟨7, some "/reset@mybot extra text",
        some [⟨some "bot_command", some 0, some 6⟩]⟩ : Message).entities.getD
          []).find? isCommandEntity = some ⟨some "bot_command", some 0, some 6⟩ ∧
      extract_bot_command
        ⟨7, some "/reset@mybot extra text", some [⟨some "bot_command", some 0, some 6⟩]⟩ =
        .ok (some (String.mk (pyLower (splitAtSign (pySliceTo
          ((some "/reset@mybot extra text" : Option String).getD "").data
          ((some (6 : Int) : Option Int).getD 0))))))) ∧
    (((⟨7, some "hello /reset", none⟩ : Message).entities.getD []).find?
        isCommandEntity = none ∧
      pyWords ((some "hello /reset" : Option String).getD "").data =
        "hello".data :: ["/reset".data] ∧
      ((pyLower "hello".data).head? ≠ some '/' →
        extract_bot_command ⟨7, some "hello /reset", none⟩ = .ok none)) :=
  ⟨⟨by rfl, extract_bot_command_spec.1
      ⟨7, some "/reset@mybot extra text", some [⟨some "bot_command", some 0, some 6⟩]⟩
      ⟨some "bot_command", some 0, some 6⟩ (by rfl)⟩,
   ⟨by rfl, by rfl,
    (extract_bot_command_spec.2.1 ⟨7, some "hello /reset", none⟩ "hello".data
      ["/reset".data] (by rfl) (by rfl)).2⟩⟩

/-- C9: the entity test accepts type `bot_command` with offset 0 or absent,
and the entity path trusts the annotation without checking the `/` marker,
so a misannotated ordinary message like `hello` is extracted as the command
`hello` and routed by `main` as an unrecognized command (canned apology, no
completion call, no memory access). -/
theorem entity_trusted_without_marker :
    (∀ e : MsgEntity, isCommandEntity e = true ↔
      (e.type = some "bot_command" ∧ (e.offset = some 0 ∨ e.offset = none))) ∧
    (∀ (m : Message) (e : MsgEntity),
      (m.entities.getD []).find? isCommandEntity = some e →
      ∃ cmd : String, extract_bot_command m = .ok (some cmd) ∧
        cmd = String.mk (pyLower (splitAtSign
          (pySliceTo (m.text.getD "").data (e.length.getD 0))))) ∧
    extract_bot_command ⟨7, some "hello", some [⟨some "bot_command", none, some 5⟩]⟩ =
      .ok (some "hello") ∧
    webhook_main ⟨"sys", 8⟩ "POST"
      (some ⟨some ⟨7, some "hello", some [⟨some "bot_command", none, some 5⟩]⟩, none⟩)
      ⟨[], 50⟩ 10 (.ok "ignored") =
      .ok ⟨200, "OK", ⟨[], 50⟩,
        [(7, "Sorry, I don't recognize that command.")], none, 0, 0, 0⟩ := by
  refine ⟨?_, ?_, by rfl, by rfl⟩
  · intro e
    obtain ⟨ty, off, len⟩ := e
    constructor
    · intro h
      simp only [isCommandEntity, Bool.and_eq_true, beq_iff_eq] at h
      refine ⟨h.1, ?_⟩
      cases off with
      | none => exact Or.inr rfl
      | some o =>
          left
          simp only [Option.getD_some] at h
          rw [h.2]
    · intro h
      simp only [isCommandEntity, Bool.and_eq_true, beq_iff_eq]
      refine ⟨h.1, ?_⟩
      rcases h.2 with h2 | h2
      · rw [show off = some 0 from h2]
        rfl
      · rw [show off = none from h2]
        rfl
  · intro m e hfind
    exact ⟨_, by simp only [extract_bot_command, hfind], rfl⟩

/-- Witness for `entity_trusted_without_marker`: the misannotated `hello`
message with a `bot_command` entity of absent offset and length 5. -/
theorem entity_trusted_without_marker_witness :
    (isCommandEntity ⟨some "bot_command", none, some 5⟩ = true ↔
      ((some "bot_command" : Option String) = some "bot_command" ∧
        ((none : Option Int) = some 0 ∨ (none : Option Int) = none))) ∧
    (((⟨7, some "hello", some [⟨some "bot_command", none, some 5⟩]⟩ : Message).entities.getD
        []).find? isCommandEntity = some ⟨some "bot_command", none, some 5⟩ ∧
      ∃ cmd : String,
        extract_bot_command ⟨7, some "hello", some [⟨some "bot_command", none, some 5⟩]⟩ =
          .ok (some cmd) ∧
        cmd = String.mk (pyLower (splitAtSign (pySliceTo
          ((some "hello" : Option String).getD "").data
          ((some (5 : Int) : Option Int).getD 0)))))  :=
  ⟨entity_trusted_without_marker.1 ⟨some "bot_command", none, some 5⟩,
   ⟨by rfl,
    entity_trusted_without_marker.2.1
      ⟨7, some "hello", some [⟨some "bot_command", none, some 5⟩]⟩
      ⟨some "bot_command", none, some 5⟩ (by rfl)⟩⟩

/-- C4: a message recognized as the `/reset` command on a conversation with
existing stored history deletes the memory record (so a later get returns
the empty history), sends exactly the canned confirmation, and performs zero
completion calls, zero history reads and zero store writes. -/
theorem reset_command_clears_memory (cfg : Config) (update : Update)
    (msg : Message) (s : InMemoryStore) (now : Int) (comp : CompletionOutcome)
    (user_text : String) (rec : InMemoryRec)
    (hu : updateMessage update = some msg)
    (ht : msg.text = some user_text)
    (hcmd : extract_bot_command msg = .ok (some "/reset"))
    (_hexist : lookupKey s.store (pyStr msg.chat_id) = some rec)
    (hnodup : (s.store.map Prod.fst).Nodup) :
    webhook_main cfg "POST" (some update) s now comp =
      .ok ⟨200, "OK", s.delete (pyStr msg.chat_id),
        [(msg.chat_id,
          telegramTruncate "Cleared the recent chat memory. We can start fresh!")],
        none, 0, 0, 0⟩ ∧
    ∀ later : Int,
      ((s.delete (pyStr msg.chat_id)).get (pyStr msg.chat_id) later).1 = [] := by
  constructor
  · simp only [webhook_main, hu, ht, hcmd]
    rfl
  · intro later
    have hdel : lookupKey (s.delete (pyStr msg.chat_id)).store (pyStr msg.chat_id) = none :=
      lookupKey_eraseKey_self s.store (pyStr msg.chat_id) hnodup
    simp [InMemoryStore.get, hdel]

/-- Witness for `reset_command_clears_memory`: chat 5 with one stored turn
sends `/reset`. -/
theorem reset_command_clears_memory_witness :
    (updateMessage ⟨some ⟨5, some "/reset", none⟩, none⟩ = some ⟨5, some "/reset", none⟩ ∧
      (⟨5, some "/reset", none⟩ : Message).text = some "/reset" ∧
      extract_bot_command ⟨5, some "/reset", none⟩ = .ok (some "/reset") ∧
      lookupKey [("5", InMemoryRec.mk [⟨"user", "x"⟩] 100)] (pyStr 5) =
        some ⟨[⟨"user", "x"⟩], 100⟩ ∧
      (([("5", InMemoryRec.mk [⟨"user", "x"⟩] 100)]).map Prod.fst).Nodup) ∧
    (webhook_main ⟨"sys", 8⟩ "POST" (some ⟨some ⟨5, some "/reset", none⟩, none⟩)
        ⟨[("5", ⟨[⟨"user", "x"⟩], 100⟩)], 50⟩ 10 (.ok "hi") =
      .ok ⟨200, "OK",
        (InMemoryStore.mk [("5", ⟨[⟨"user", "x"⟩], 100⟩)] 50).delete (pyStr 5),
        [(5, telegramTruncate "Cleared the recent chat memory. We can start fresh!")],
        none, 0, 0, 0⟩ ∧
      ∀ later : Int,
        (((InMemoryStore.mk [("5", ⟨[⟨"user", "x"⟩], 100⟩)] 50).delete (pyStr 5)).get
          (pyStr 5) later).1 = []) :=
  ⟨⟨by rfl, by rfl, by rfl, by rfl, by decide⟩,
   reset_command_clears_memory ⟨"sys", 8⟩ ⟨some ⟨5, some "/reset", none⟩, none⟩
     ⟨5, some "/reset", none⟩ ⟨[("5", ⟨[⟨"user", "x"⟩], 100⟩)], 50⟩ 10 (.ok "hi")
     "/reset" ⟨[⟨"user", "x"⟩], 100⟩ (by rfl) (by rfl) (by rfl) (by rfl) (by decide)⟩

/-- C7: when the completion provider fails on a chat-branch message, the
handler substitutes the generic error text as the assistant turn, appends the
user turn and the error turn, persists the clipped result, and sends the
error text as the user-visible reply. -/
theorem completion_error_remembered (cfg : Config) (update : Update)
    (msg : Message) (s : InMemoryStore) (now : Int) (user_text ename : String)
    (hu : updateMessage update = some msg)
    (ht : msg.text = some user_text)
    (hcmd : extract_bot_command msg = .ok none) :
    webhook_main cfg "POST" (some update) s now (.error ename) =
      .ok ⟨200, "OK",
        ((s.get (pyStr msg.chat_id) now).2).put (pyStr msg.chat_id)
          (clip_history ((s.get (pyStr msg.chat_id) now).1 ++
            [⟨"user", user_text⟩, ⟨"assistant", "⚠️ Error: " ++ ename⟩])
            cfg.memory_max_turns) now,
        [(msg.chat_id, telegramTruncate ("⚠️ Error: " ++ ename))],
        some (build_messages cfg (s.get (pyStr msg.chat_id) now).1 user_text),
        1, 1, 1⟩ := by
  simp only [webhook_main, hu, ht, hcmd]
  rfl

/-- Witness for `completion_error_remembered`: chat 5 says `Hi`, the provider
raises `APIError`. -/
theorem completion_error_remembered_witness :
    (updateMessage ⟨some ⟨5, some "Hi", none⟩, none⟩ = some ⟨5, some "Hi", none⟩ ∧
      (⟨5, some "Hi", none⟩ : Message).text = some "Hi" ∧
      extract_bot_command ⟨5, some "Hi", none⟩ = .ok none) ∧
    webhook_main ⟨"sys", 8⟩ "POST" (some ⟨some ⟨5, some "Hi", none⟩, none⟩)
        ⟨[], 50⟩ 10 (.error "APIError") =
      .ok ⟨200, "OK",
        (((InMemoryStore.mk [] 50).get (pyStr 5) 10).2).put (pyStr 5)
          (clip_history ((((InMemoryStore.mk [] 50).get (pyStr 5) 10).1) ++
            [⟨"user", "Hi"⟩, ⟨"assistant", "⚠️ Error: " ++ "APIError"⟩]) 8) 10,
        [(5, telegramTruncate ("⚠️ Error: " ++ "APIError"))],
        some (build_messages ⟨"sys", 8⟩ ((InMemoryStore.mk [] 50).get (pyStr 5) 10).1 "Hi"),
        1, 1, 1⟩ :=
  ⟨⟨by rfl, by rfl, by rfl⟩,
   completion_error_remembered ⟨"sys", 8⟩ ⟨some ⟨5, some "Hi", none⟩, none⟩
     ⟨5, some "Hi", none⟩ ⟨[], 50⟩ 10 "Hi" "APIError" (by rfl) (by rfl) (by rfl)⟩

theorem inMemoryGet_snd_cases (s : InMemoryStore) (k : String) (now : Int) :
    (s.get k now).2 = s ∨ (s.get k now).2 = s.delete k := by
  unfold InMemoryStore.get
  cases hl : lookupKey s.store k with
  | none => exact Or.inl rfl
  | some rec =>
      by_cases he : rec.exp < now
      · right
        simp [he, InMemoryStore.delete]
      · left
        simp [he]

theorem inMemoryGet_fst_cases (s : InMemoryStore) (k : String) (now : Int) :
    (s.get k now).1 = [] ∨
    ∃ rec : InMemoryRec, (k, rec) ∈ s.store ∧ (s.get k now).1 = rec.messages := by
  unfold InMemoryStore.get
  cases hl : lookupKey s.store k with
  | none => exact Or.inl rfl
  | some rec =>
      by_cases he : rec.exp < now
      · left
        simp [he]
      · right
        exact ⟨rec, lookupKey_mem hl, by simp [he]⟩

theorem chatStoreEntries (cfg : Config) (s : InMemoryStore) (key : String)
    (now : Int) (ut ans : String) (hs : NoSystemStore s) :
    ∀ e ∈ ((s.get key now).2.put key
      (clip_history ((s.get key now).1 ++ [⟨"user", ut⟩, ⟨"assistant", ans⟩])
        cfg.memory_max_turns) now).store,
      e ∈ s.store ∨
      (e.2.messages.length ≤ cfg.memory_max_turns.toNat ∧
        ∀ turn ∈ e.2.messages, turn.role ≠ "system") := by
  intro e he
  simp only [InMemoryStore.put] at he
  rcases mem_insertKey he with heq | hmem
  · subst heq
    refine Or.inr ⟨clip_history_length_le _ _, ?_⟩
    intro turn hturn
    rcases List.mem_append.1 (mem_clip_history hturn) with h1 | h1
    · rcases inMemoryGet_fst_cases s key now with hnil | ⟨rec, hrecmem, heq2⟩
      · rw [hnil] at h1
        exact absurd h1 (List.not_mem_nil turn)
      · rw [heq2] at h1
        exact hs _ hrecmem turn h1
    · simp only [List.mem_cons] at h1
      rcases h1 with h1 | h1 | h1
      · rw [h1]
        show ("user" : String) ≠ "system"
        decide
      · rw [h1]
        show ("assistant" : String) ≠ "system"
        decide
      · exact absurd h1 (List.not_mem_nil turn)
  · rcases inMemoryGet_snd_cases s key now with h2 | h2
    · rw [h2] at hmem
      exact Or.inl hmem
    · rw [h2] at hmem
      exact Or.inl (mem_eraseKey hmem)

/-- C5: whenever a request handled from a store with no stored system turn
succeeds, every store entry it leaves behind either predates the request or
was written by the chat branch with length at most the configured window and
no system turn; hence no system turn is ever persisted, while
`build_messages` injects the system prompt only into the outgoing prompt. -/
theorem chat_branch_store_invariant (cfg : Config) (method : String)
    (body : Option Update) (s : InMemoryStore) (now : Int)
    (comp : CompletionOutcome) (r : MainResult)
    (hok : webhook_main cfg method body s now comp = .ok r)
    (hs : NoSystemStore s) :
    (∀ e ∈ r.store.store, e ∈ s.store ∨
      (e.2.messages.length ≤ cfg.memory_max_turns.toNat ∧
        ∀ turn ∈ e.2.messages, turn.role ≠ "system")) ∧
    NoSystemStore r.store ∧
    (∀ (h : History) (u : String),
      build_messages cfg h u = ⟨"system", cfg.system_prompt⟩ :: (h ++ [⟨"user", u⟩])) := by
  have hmain : ∀ e ∈ r.store.store, e ∈ s.store ∨
      (e.2.messages.length ≤ cfg.memory_max_turns.toNat ∧
        ∀ turn ∈ e.2.messages, turn.role ≠ "system") := by
    simp only [webhook_main] at hok
    split at hok
    · injection hok with h
      subst h
      exact fun e he => Or.inl he
    · split at hok
      · injection hok with h
        subst h
        exact fun e he => Or.inl he
      · split at hok
        · injection hok with h
          subst h
          exact fun e he => Or.inl he
        · split at hok
          · injection hok with h
            subst h
            exact fun e he => Or.inl he
          · split at hok
            · exact Except.noConfusion hok
            · injection hok with h
              subst h
              intro e he
              simp only at he
              split at he
              · exact Or.inl (mem_eraseKey he)
              · exact Or.inl he
            · injection hok with h
              subst h
              intro e he
              exact chatStoreEntries cfg s _ now _ _ hs e he
  refine ⟨hmain, ?_, fun h u => rfl⟩
  intro e he turn hturn
  rcases hmain e he with h1 | h1
  · exact hs e h1 turn hturn
  · exact h1.2 turn hturn

/-- Witness for `chat_branch_store_invariant`: chat 5 with one stored user
turn says `Hi` and the provider answers `Hello!`. -/
theorem chat_branch_store_invariant_witness :
    (webhook_main ⟨"sys", 8⟩ "POST" (some ⟨some ⟨5, some "Hi", none⟩, none⟩)
        ⟨[("5", ⟨[⟨"user", "old"⟩], 100⟩)], 50⟩ 10 (.ok "Hello!") =
      .ok ⟨200, "OK",
        ⟨[("5", ⟨[⟨"user", "old"⟩, ⟨"user", "Hi"⟩, ⟨"assistant", "Hello!"⟩], 60⟩)], 50⟩,
        [(5, "Hello!")],
        some [⟨"system", "sys"⟩, ⟨"user", "old"⟩, ⟨"user", "Hi"⟩], 1, 1, 1⟩ ∧
      NoSystemStore ⟨[("5", ⟨[⟨"user", "old"⟩], 100⟩)], 50⟩) ∧
    ((∀ e ∈ (MainResult.mk 200 "OK"
        ⟨[("5", ⟨[⟨"user", "old"⟩, ⟨"user", "Hi"⟩, ⟨"assistant", "Hello!"⟩], 60⟩)], 50⟩
        [(5, "Hello!")]
        (some [⟨"system", "sys"⟩, ⟨"user", "old"⟩, ⟨"user", "Hi"⟩]) 1 1 1).store.store,
        e ∈ [("5", InMemoryRec.mk [⟨"user", "old"⟩] 100)] ∨
        (e.2.messages.length ≤ (⟨"sys", 8⟩ : Config).memory_max_turns.toNat ∧
          ∀ turn ∈ e.2.messages, turn.role ≠ "system")) ∧
      NoSystemStore (MainResult.mk 200 "OK"
        ⟨[("5", ⟨[⟨"user", "old"⟩, ⟨"user", "Hi"⟩, ⟨"assistant", "Hello!"⟩], 60⟩)], 50⟩
        [(5, "Hello!")]
        (some [⟨"system", "sys"⟩, ⟨"user", "old"⟩, ⟨"user", "Hi"⟩]) 1 1 1).store ∧
      (∀ (h : History) (u : String),
        build_messages ⟨"sys", 8⟩ h u = ⟨"system", "sys"⟩ :: (h ++ [⟨"user", u⟩]))) :=
  ⟨⟨by rfl, by unfold NoSystemStore; decide⟩,
   chat_branch_store_invariant ⟨"sys", 8⟩ "POST" (some ⟨some ⟨5, some "Hi", none⟩, none⟩)
     ⟨[("5", ⟨[⟨"user", "old"⟩], 100⟩)], 50⟩ 10 (.ok "Hello!")
     ⟨200, "OK",
       ⟨[("5", ⟨[⟨"user", "old"⟩, ⟨"user", "Hi"⟩, ⟨"assistant", "Hello!"⟩], 60⟩)], 50⟩,
       [(5, "Hello!")],
       some [⟨"system", "sys"⟩, ⟨"user", "old"⟩, ⟨"user", "Hi"⟩], 1, 1, 1⟩
     (by rfl) (by unfold NoSystemStore; decide)⟩
